import Mathlib

/-!
Verification development for the deterministic simulation engine of the
perpetu.ai repository (advancement tiers, dice, travel, combat, turn
processing and the madra scale economy).

Modelling conventions, applied uniformly:
* JavaScript numbers are modelled as exact rationals; decimal literals such
  as 0.05 or 0.001 denote the exact rational value of the source literal.
* Math.floor and Math.ceil are the integer floor and ceiling, cast back
  to the rationals, matching their exact behaviour on JS numbers.
* Math.sqrt is modelled as an explicit function parameter sq together with
  the hypothesis that it is exact on rational squares (SqrtExact); the
  executable instance qSqrt realises this hypothesis.
* Math.random and Date.now are modelled as explicit parameters r and now.
* Mutable objects are modelled by state passing: the dice engine is a
  one-field structure threaded through each call; the turn engine maps
  input characters to output characters.
* A thrown JS exception is modelled as the error case of Except; optional
  object fields that the source may leave absent are modelled as Option,
  with none standing for an absent (undefined) field.
-/

namespace Perpetu

/-! ## Tier model (source: advancement module, part_012) -/

/-- Advancement tiers from Foundation to Monarch. -/
inductive AdvancementTier where
  | Foundation | Iron | Jade | LowGold | HighGold | TrueGold
  | Underlord | Overlord | Archlord | Herald | Sage | Monarch
deriving DecidableEq, Fintype

/-- Tier levels for calculating bonuses and differences
(source: ADVANCEMENT_TIER_LEVELS record). -/
def ADVANCEMENT_TIER_LEVELS : AdvancementTier → ℤ
  | .Foundation => 0
  | .Iron => 1
  | .Jade => 2
  | .LowGold => 3
  | .HighGold => 4
  | .TrueGold => 5
  | .Underlord => 6
  | .Overlord => 7
  | .Archlord => 8
  | .Herald => 9
  | .Sage => 9
  | .Monarch => 10

/-- Combat bonus based on advancement tier difference:
(level1 - level2) * 3. -/
def calculateTierBonus (tier1 tier2 : AdvancementTier) : ℤ :=
  let level1 := ADVANCEMENT_TIER_LEVELS tier1
  let level2 := ADVANCEMENT_TIER_LEVELS tier2
  (level1 - level2) * 3

/-- Perception range as a fraction of the map (1.0 = full map). -/
def calculatePerceptionRange (tier : AdvancementTier) : ℚ :=
  let level := ADVANCEMENT_TIER_LEVELS tier
  if level ≥ 10 then 1.0
  else if level ≥ 8 then 0.5
  else if level ≥ 7 then 0.25
  else if level ≥ 6 then 0.125
  else if level ≥ 5 then 0.0625
  else if level ≥ 3 then 0.03125
  else if level ≥ 2 then 0.015625
  else if level ≥ 1 then 0.0078125
  else 0.00390625

/-- Travel speed as a fraction of the map per day. The source returns the
JS value Infinity for level 10 (Monarch travels instantly); that sentinel
is modelled as none, and a finite speed as some. -/
def calculateTravelSpeed (tier : AdvancementTier) : Option ℚ :=
  let level := ADVANCEMENT_TIER_LEVELS tier
  if level ≥ 10 then none
  else if level ≥ 8 then some 0.5
  else if level ≥ 7 then some 0.25
  else if level ≥ 6 then some 0.125
  else if level ≥ 5 then some 0.0625
  else if level ≥ 3 then some 0.03125
  else if level ≥ 2 then some 0.015625
  else if level ≥ 1 then some 0.0078125
  else some 0.00390625

/-! ## Numeric helpers modelling JS Math built-ins -/

/-- Math.floor on an exact rational. -/
def mathFloor (q : ℚ) : ℚ := (⌊q⌋ : ℚ)

/-- Math.ceil on an exact rational. -/
def mathCeil (q : ℚ) : ℚ := (⌈q⌉ : ℚ)

/-- Executable model of Math.sqrt that is exact on squares of nonnegative
rationals, using the rational square root (integer square roots of
numerator and denominator). -/
def qSqrt (q : ℚ) : ℚ := Rat.sqrt q

/-- A function sq is an exact model of Math.sqrt if it maps every square
of a nonnegative rational to that rational. -/
def SqrtExact (sq : ℚ → ℚ) : Prop := ∀ x : ℚ, 0 ≤ x → sq (x * x) = x

/-! ## Data model (source: character and world schema modules) -/

/-- Character position on the map. -/
structure Position where
  x : ℚ
  y : ℚ
deriving DecidableEq

/-- Madra core: a character's madra reservoir. The nature and tier tags
are strings as in the schema. -/
structure MadraCore where
  nature : String
  currentMadra : ℚ
  maxMadra : ℚ
  tier : String
deriving DecidableEq

/-- Technique schema. -/
structure Technique where
  id : String
  name : String
  description : String
  nature : String
  requiredTier : String
  madraCost : ℚ
  proficiency : ℚ
  cooldown : ℚ
deriving DecidableEq

/-- Character stats: six D&D-style abilities plus combat stats. -/
structure CharacterStats where
  strength : ℚ
  dexterity : ℚ
  constitution : ℚ
  intelligence : ℚ
  wisdom : ℚ
  charisma : ℚ
  maxHp : ℚ
  currentHp : ℚ
  armorClass : ℚ
  initiative : ℚ
  tierBonus : ℚ
deriving DecidableEq

/-- Inventory item type tags. -/
inductive ItemType where
  | weapon | armor | consumable | quest | scale | other
deriving DecidableEq

/-- Properties record attached to an item; the source schema is an open
record, of which the engine only ever reads or writes the madra charge,
the nature and the source tier. Absent fields are none. -/
structure ItemProperties where
  madra : Option ℚ := none
  nature : Option String := none
  sourceTier : Option AdvancementTier := none
deriving DecidableEq

/-- Inventory item. -/
structure Item where
  id : String
  name : String
  description : String
  type : ItemType
  quantity : ℚ
  properties : Option ItemProperties := none
deriving DecidableEq

/-- Madra charge payload of an item: the value of properties.madra when
both the properties record and the madra field are present. -/
def Item.madraPayload (i : Item) : Option ℚ :=
  i.properties.bind ItemProperties.madra

/-- Timeline event action kinds. -/
inductive EventAction where
  | move | combat | interact | train | custom
deriving DecidableEq

/-- Timeline event for NPC autonomous behavior. -/
structure TimelineEvent where
  id : String
  turn : ℚ
  description : String
  action : EventAction
  targetLocation : Option Position := none
  targetCharacterId : Option String := none
  completed : Bool := false
  priority : ℚ := 5
deriving DecidableEq

/-- Character activity state. -/
inductive Activity where
  | idle | traveling | combat | training | resting | interacting | custom
deriving DecidableEq

/-- Full character record; fields not read or written by the engine
(creation metadata flags and relationship strings) are kept where the
engine copies them along. -/
structure Character where
  id : String
  name : String
  advancementTier : AdvancementTier
  madraCore : MadraCore
  techniques : List Technique
  stats : CharacterStats
  inventory : List Item
  position : Position
  activity : Activity
  timeline : List TimelineEvent
  createdAt : ℚ
  lastUpdated : ℚ
deriving DecidableEq

/-- World map dimensions (the engine reads only width and height). -/
structure WorldMap where
  id : String
  name : String
  width : ℚ
  height : ℚ
deriving DecidableEq

/-- Game world state (the engine reads only the map and the turn counter). -/
structure World where
  id : String
  name : String
  map : WorldMap
  currentTurn : ℚ
deriving DecidableEq

/-- World event kinds. -/
inductive WorldEventType where
  | combat | discovery | interaction | advancement | death | custom
deriving DecidableEq

/-- Event that occurs in the world. -/
structure WorldEvent where
  id : String
  turn : ℚ
  type : WorldEventType
  involvedCharacterIds : List String
  location : Position
  description : String
  timestamp : ℚ
deriving DecidableEq

/-! ## Travel and movement engine (source: TravelEngine, part_011) -/

/-- Squared Euclidean distance, the argument of Math.sqrt in
calculateDistance. -/
def dist2 (pos1 pos2 : Position) : ℚ :=
  let dx := pos2.x - pos1.x
  let dy := pos2.y - pos1.y
  dx * dx + dy * dy

/-- Distance between two positions: Math.sqrt of the squared distance,
with Math.sqrt supplied as the parameter sq. -/
def calculateDistance (sq : ℚ → ℚ) (pos1 pos2 : Position) : ℚ :=
  sq (dist2 pos1 pos2)

/-- Whether a character can perceive another based on advancement tier. -/
def canPerceive (sq : ℚ → ℚ) (observer target : Character)
    (mapDiagonal : ℚ) : Bool :=
  let distance := calculateDistance sq observer.position target.position
  let perceptionRange := calculatePerceptionRange observer.advancementTier
  let maxDistance := mapDiagonal * perceptionRange
  decide (distance ≤ maxDistance)

/-- Move a character toward a target position based on travel speed.
Monarch speed (the Infinity sentinel, here none) returns the exact
target; within one step the move snaps to the target; otherwise the
position advances by maxMovement along the direction vector. -/
def moveToward (sq : ℚ → ℚ) (character : Character)
    (targetPosition : Position) (mapDiagonal : ℚ) : Position :=
  match calculateTravelSpeed character.advancementTier with
  | none => targetPosition
  | some travelSpeed =>
    let maxMovement := mapDiagonal * travelSpeed
    let currentDistance :=
      calculateDistance sq character.position targetPosition
    if currentDistance ≤ maxMovement then targetPosition
    else
      let dirx := (targetPosition.x - character.position.x) / currentDistance
      let diry := (targetPosition.y - character.position.y) / currentDistance
      { x := character.position.x + dirx * maxMovement
        y := character.position.y + diry * maxMovement }

/-- Whether two characters are within interaction range
(1 percent of the map diagonal). -/
def canInteract (sq : ℚ → ℚ) (char1 char2 : Character)
    (mapDiagonal : ℚ) : Bool :=
  let distance := calculateDistance sq char1.position char2.position
  let interactionRange := mapDiagonal * 0.01
  decide (distance ≤ interactionRange)

/-- All other characters within interaction range. -/
def findNearbyCharacters (sq : ℚ → ℚ) (character : Character)
    (allCharacters : List Character) (mapDiagonal : ℚ) : List Character :=
  allCharacters.filter fun other =>
    decide (other.id ≠ character.id) &&
      canInteract sq character other mapDiagonal

/-- Time in turns to travel between two points: 0 for unbounded speed,
otherwise the ceiling of distance over the per-turn step. -/
def calculateTravelTime (sq : ℚ → ℚ) (character : Character)
    (from_ to_ : Position) (mapDiagonal : ℚ) : ℚ :=
  match calculateTravelSpeed character.advancementTier with
  | none => 0
  | some travelSpeed =>
    let distance := calculateDistance sq from_ to_
    let maxMovementPerTurn := mapDiagonal * travelSpeed
    mathCeil (distance / maxMovementPerTurn)

/-- Iterated application of moveToward: the character repeatedly updates
its position toward the target, as a caller would over successive turns. -/
def moveIter (sq : ℚ → ℚ) (character : Character)
    (targetPosition : Position) (mapDiagonal : ℚ) : ℕ → Character
  | 0 => character
  | n + 1 =>
    moveIter sq
      { character with
        position := moveToward sq character targetPosition mapDiagonal }
      targetPosition mapDiagonal n

/-! ## Dice rolling engine (source: DiceEngine, part_011) -/

/-- Dice roll result value object. -/
structure DiceRoll where
  diceType : ℚ
  numDice : ℕ
  results : List ℚ
  modifier : ℚ
  total : ℚ
  criticalHit : Bool
  criticalFail : Bool
deriving DecidableEq

/-- Dice engine state: exactly one mutable integer of seed state. The
source stores it as a JS number; its contract is an integer seed. -/
structure DiceEngine where
  seed : ℤ
deriving DecidableEq

/-- JS remainder operator on integers: truncated toward zero, keeping the
sign of the dividend. -/
def jsMod (a b : ℤ) : ℤ := Int.tmod a b

/-- Constructor: seed defaults to a time-derived value when omitted. The
JS expression seed OR Date.now() also replaces a falsy seed of 0 by the
current time, supplied here as the parameter now. -/
def mkDiceEngine (seed : Option ℤ) (now : ℤ) : DiceEngine :=
  match seed with
  | some s => if s = 0 then { seed := now } else { seed := s }
  | none => { seed := now }

/-- Seeded random step (LCG): advances the seed and returns the
normalized value seed over 233280. -/
def DiceEngine.random (e : DiceEngine) : ℚ × DiceEngine :=
  let s := jsMod (e.seed * 9301 + 49297) 233280
  ((s : ℚ) / 233280, { seed := s })

/-- Draws numDice values, each Math.floor(random() * diceType) + 1,
in call order. -/
def rollResults (diceType : ℚ) : DiceEngine → ℕ → List ℚ × DiceEngine
  | e, 0 => ([], e)
  | e, n + 1 =>
    let r := e.random
    let rest := rollResults diceType r.2 n
    ((mathFloor (r.1 * diceType) + 1) :: rest.1, rest.2)

/-- Roll dice with modifiers: draws the results, sums, adds the modifier,
and flags a critical hit or fail for a single natural 20 or 1 on a d20. -/
def DiceEngine.roll (e : DiceEngine) (diceType : ℚ) (numDice : ℕ)
    (modifier : ℚ := 0) : DiceRoll × DiceEngine :=
  let drawn := rollResults diceType e numDice
  let results := drawn.1
  let sum := results.foldl (· + ·) 0
  let total := sum + modifier
  ({ diceType := diceType
     numDice := numDice
     results := results
     modifier := modifier
     total := total
     criticalHit := decide (diceType = 20 ∧ numDice = 1 ∧ results.headI = 20)
     criticalFail :=
       decide (diceType = 20 ∧ numDice = 1 ∧ results.headI = 1) },
   drawn.2)

/-- Roll with advantage: roll twice, keep the roll with the higher raw
result, then apply the modifier. -/
def DiceEngine.rollAdvantage (e : DiceEngine) (diceType : ℚ)
    (modifier : ℚ := 0) : DiceRoll × DiceEngine :=
  let r1 := e.roll diceType 1 0
  let r2 := r1.2.roll diceType 1 0
  let betterRoll :=
    if r1.1.results.headI > r2.1.results.headI then r1.1 else r2.1
  ({ betterRoll with
     modifier := modifier
     total := betterRoll.results.headI + modifier }, r2.2)

/-- Roll with disadvantage: roll twice, keep the roll with the lower raw
result, then apply the modifier. -/
def DiceEngine.rollDisadvantage (e : DiceEngine) (diceType : ℚ)
    (modifier : ℚ := 0) : DiceRoll × DiceEngine :=
  let r1 := e.roll diceType 1 0
  let r2 := r1.2.roll diceType 1 0
  let worseRoll :=
    if r1.1.results.headI < r2.1.results.headI then r1.1 else r2.1
  ({ worseRoll with
     modifier := modifier
     total := worseRoll.results.headI + modifier }, r2.2)

/-- Ability modifier from an ability score, D&D 5e style. -/
def getAbilityModifier (abilityScore : ℚ) : ℚ :=
  mathFloor ((abilityScore - 10) / 2)

/-- Explicit re-seeding, replacing all future draws. -/
def DiceEngine.setSeed (_ : DiceEngine) (seed : ℤ) : DiceEngine :=
  { seed := seed }

/-- One call against the dice engine, for stating sequence determinism. -/
inductive DiceCall where
  | roll (diceType : ℚ) (numDice : ℕ) (modifier : ℚ)
  | rollAdvantage (diceType : ℚ) (modifier : ℚ)
  | rollDisadvantage (diceType : ℚ) (modifier : ℚ)
deriving DecidableEq

/-- Run a sequence of calls against the engine, collecting the rolls the
caller observes and the final engine state. -/
def runCalls : DiceEngine → List DiceCall → List DiceRoll × DiceEngine
  | e, [] => ([], e)
  | e, c :: cs =>
    let step :=
      match c with
      | .roll d n m => e.roll d n m
      | .rollAdvantage d m => e.rollAdvantage d m
      | .rollDisadvantage d m => e.rollDisadvantage d m
    let rest := runCalls step.2 cs
    (step.1 :: rest.1, rest.2)

/-! ## Combat engine (source: CombatEngine, part_011) -/

/-- Combat action types. -/
inductive CombatActionType where
  | attack | cast_technique | defend | move | use_item | dodge | end_turn
deriving DecidableEq

/-- Combat action: an intent with optional target, technique and item
references. -/
structure CombatAction where
  actorId : String
  actionType : CombatActionType
  targetId : Option String := none
  techniqueId : Option String := none
  itemId : Option String := none
  position : Option Position := none
deriving DecidableEq

/-- Combat result. The source builds plain objects that may omit the
roll, damage and madraCost fields; absent fields are none here. -/
structure CombatResult where
  action : CombatAction
  roll : Option DiceRoll := none
  success : Bool
  damage : Option ℚ := none
  madraCost : Option ℚ := none
  effects : List String
  description : String
deriving DecidableEq

/-- Resolve a basic attack: d20 plus strength modifier, proficiency 2 and
the tier bonus against the defender's armor class, with critical dice. -/
def resolveAttack (e : DiceEngine) (attacker defender : Character) :
    CombatResult × DiceEngine :=
  let tierBonus :=
    calculateTierBonus attacker.advancementTier defender.advancementTier
  let strMod := getAbilityModifier attacker.stats.strength
  let proficiencyBonus : ℚ := 2
  let attackModifier := strMod + proficiencyBonus + (tierBonus : ℚ)
  let ar := e.roll 20 1 attackModifier
  let attackRoll := ar.1
  let hits :=
    decide (attackRoll.total ≥ defender.stats.armorClass) ||
      attackRoll.criticalHit
  let afterDamage :=
    if hits then
      let dr := ar.2.roll 8 1 strMod
      let baseDamage := max 1 dr.1.total
      if attackRoll.criticalHit then
        let dr2 := dr.2.roll 8 1 0
        (baseDamage + dr2.1.total, dr2.2)
      else (baseDamage, dr.2)
    else (0, ar.2)
  let damage := afterDamage.1
  let effects :=
    (if attackRoll.criticalHit then ["Critical Hit!"] else []) ++
      (if attackRoll.criticalFail then ["Critical Failure!"] else [])
  ({ action :=
       { actorId := attacker.id
         actionType := .attack
         targetId := some defender.id }
     roll := some attackRoll
     success := hits
     damage := some damage
     effects := effects
     description :=
       if hits then
         attacker.name ++ " hits " ++ defender.name ++ " for " ++
           toString damage ++ " damage! (Roll: " ++
           toString attackRoll.total ++ " vs AC " ++
           toString defender.stats.armorClass ++ ")"
       else
         attacker.name ++ " misses " ++ defender.name ++ "! (Roll: " ++
           toString attackRoll.total ++ " vs AC " ++
           toString defender.stats.armorClass ++ ")" },
   afterDamage.2)

/-- Resolve technique casting. The target parameter stays optional
because the source dereferences its non-null assertion only after the
technique lookup and the madra-cost check; a dereference of an absent
target is the error case. -/
def resolveTechnique (e : DiceEngine) (action : CombatAction)
    (caster : Character) (target : Option Character) :
    Except String (CombatResult × DiceEngine) :=
  match caster.techniques.find? fun t => action.techniqueId = some t.id with
  | none =>
    .ok ({ action := action
           success := false
           description := "Technique not found"
           effects := [] }, e)
  | some technique =>
    if caster.madraCore.currentMadra < technique.madraCost then
      .ok ({ action := action
             success := false
             description :=
               caster.name ++ " does not have enough madra! (" ++
                 toString caster.madraCore.currentMadra ++ "/" ++
                 toString technique.madraCost ++ " needed)"
             effects := [] }, e)
    else
      match target with
      | none => .error "TypeError: target is undefined"
      | some target =>
        let tierBonus :=
          calculateTierBonus caster.advancementTier target.advancementTier
        let castingMod := getAbilityModifier caster.stats.intelligence
        let proficiencyBonus : ℚ := 2
        let attackModifier := castingMod + proficiencyBonus + (tierBonus : ℚ)
        let ar := e.roll 20 1 attackModifier
        let attackRoll := ar.1
        let hits := decide (attackRoll.total ≥ target.stats.armorClass)
        let afterDamage :=
          if hits then
            let baseDamage := technique.proficiency / 10
            let dr := ar.2.roll 10 2 (mathFloor baseDamage)
            (dr.1.total, dr.2, [technique.nature ++ " technique effect"])
          else (0, ar.2, [])
        .ok ({ action := action
               roll := some attackRoll
               success := hits
               damage := some afterDamage.1
               madraCost := some technique.madraCost
               effects := afterDamage.2.2
               description :=
                 if hits then
                   caster.name ++ " casts " ++ technique.name ++ " on " ++
                     target.name ++ " for " ++ toString afterDamage.1 ++
                     " damage!"
                 else
                   caster.name ++ "'s " ++ technique.name ++ " misses " ++
                     target.name ++ "!" },
             afterDamage.2.1)

/-- Resolve the defend action: always succeeds, no roll. -/
def resolveDefend (e : DiceEngine) (character : Character) :
    CombatResult × DiceEngine :=
  ({ action := { actorId := character.id, actionType := .defend }
     success := true
     effects := ["AC +2 until next turn"]
     description := character.name ++ " takes a defensive stance!" }, e)

/-- Resolve the dodge action: always succeeds, no roll. -/
def resolveDodge (e : DiceEngine) (character : Character) :
    CombatResult × DiceEngine :=
  ({ action := { actorId := character.id, actionType := .dodge }
     success := true
     effects := ["Attacks against you have disadvantage until next turn"]
     description := character.name ++ " prepares to dodge!" }, e)

/-- Resolve a combat action, dispatching on its type. The attack branch
dereferences the non-null asserted target immediately, so an absent
target is the error case there; all other action types fall to the
invalid-action result without touching the dice engine. -/
def resolveCombatAction (e : DiceEngine) (action : CombatAction)
    (actor : Character) (target : Option Character) :
    Except String (CombatResult × DiceEngine) :=
  match action.actionType with
  | .attack =>
    match target with
    | some t => .ok (resolveAttack e actor t)
    | none => .error "TypeError: target is undefined"
  | .cast_technique => resolveTechnique e action actor target
  | .defend => .ok (resolveDefend e actor)
  | .dodge => .ok (resolveDodge e actor)
  | _ =>
    .ok ({ action := action
           success := false
           description := "Invalid action"
           effects := [] }, e)

/-! ## Madra helpers (source: packages/models/src/madra.ts) -/

/-- Base madra capacity for an advancement tier level, exponential. -/
def calculateBaseMadraCapacity (tierLevel : ℕ) : ℚ :=
  100 * 2 ^ tierLevel

/-- Scale madra content: the enemy's remaining madra times a fraction
drawn between 1/30 and 1/20, floored. Math.random() is r. -/
def calculateScaleMadra (r : ℚ) (enemyRemainingMadra : ℚ) : ℚ :=
  let minFraction : ℚ := 1 / 30
  let maxFraction : ℚ := 1 / 20
  let fraction := minFraction + r * (maxFraction - minFraction)
  mathFloor (enemyRemainingMadra * fraction)

/-! ## Turn engine (source: TurnEngine, part_010) -/

/-- Result of cycleScale. The source never sets newTier, so it stays
absent. -/
structure CycleScaleResult where
  character : Character
  advanced : Bool
  newTier : Option String := none
deriving DecidableEq

/-- Process scale cycling. The guard rejects a non-scale item or a falsy
madra payload (absent or 0) by throwing, modelled as the error case.
Otherwise the charge is added to current madra, any overflow above the
maximum becomes a capacity increase, and the scale leaves the inventory;
tier advancement is unimplemented and advanced is always false. -/
def cycleScale (character : Character) (scale : Item) :
    Except String CycleScaleResult :=
  if scale.type ≠ ItemType.scale ∨ scale.madraPayload.getD 0 = 0 then
    .error "Invalid scale item"
  else
    let scaleMadra := scale.madraPayload.getD 0
    let newMadra0 := character.madraCore.currentMadra + scaleMadra
    let capacityIncrease :=
      if newMadra0 > character.madraCore.maxMadra then
        newMadra0 - character.madraCore.maxMadra
      else 0
    let newMadra :=
      if newMadra0 > character.madraCore.maxMadra then
        character.madraCore.maxMadra
      else newMadra0
    let newMaxMadra := character.madraCore.maxMadra + capacityIncrease
    .ok
      { character :=
          { character with
            madraCore :=
              { character.madraCore with
                currentMadra := newMadra
                maxMadra := newMaxMadra }
            inventory :=
              character.inventory.filter fun item =>
                decide (item.id ≠ scale.id) }
        advanced := false }

/-- Generate a scale drop from a defeated enemy. Math.random() inside
calculateScaleMadra is r; Date.now() is now. -/
def generateScaleDrop (r now : ℚ) (defeatedEnemy : Character) : Item :=
  let scaleMadra :=
    calculateScaleMadra r defeatedEnemy.madraCore.currentMadra
  { id := "scale-" ++ defeatedEnemy.id ++ "-" ++ toString now
    name := defeatedEnemy.madraCore.nature ++ " Scale"
    description :=
      "A scale containing " ++ defeatedEnemy.madraCore.nature ++
        " madra from " ++ defeatedEnemy.name
    type := ItemType.scale
    quantity := 1
    properties :=
      some { madra := some scaleMadra
             nature := some defeatedEnemy.madraCore.nature
             sourceTier := some defeatedEnemy.advancementTier } }

/-- Timeline events due at the given turn: trigger turn equal to the new
turn number and not yet completed. -/
def dueEvents (currentTurn : ℚ) (character : Character) :
    List TimelineEvent :=
  character.timeline.filter fun event =>
    decide (event.turn = currentTurn ∧ event.completed = false)

/-- Marking pass over a timeline: each event due at the given turn gets
its completed flag set, modelling the in-place mutation the source
performs on the shared timeline array during the event loop. -/
def markCompleted (currentTurn : ℚ) (timeline : List TimelineEvent) :
    List TimelineEvent :=
  timeline.map fun event =>
    if event.turn = currentTurn ∧ event.completed = false then
      { event with completed := true }
    else event

/-- Process character movement toward a goal. -/
def processMovement (sq : ℚ → ℚ) (character : Character)
    (targetPosition : Position) (mapDiagonal : ℚ) : Character :=
  let newPosition := moveToward sq character targetPosition mapDiagonal
  { character with position := newPosition, activity := .traveling }

/-- Process the training activity: every technique's proficiency rises by
1 capped at 100, and the madra capacity grows by 0.1 percent. -/
def processTraining (character : Character) : Character :=
  let updatedTechniques := character.techniques.map fun technique =>
    { technique with proficiency := min 100 (technique.proficiency + 1) }
  let capacityIncrease := character.madraCore.maxMadra * 0.001
  { character with
    techniques := updatedTechniques
    madraCore :=
      { character.madraCore with
        maxMadra := character.madraCore.maxMadra + capacityIncrease }
    activity := .training }

/-- Dispatch of a single due timeline event on a character: move invokes
movement toward the event's target when present, train invokes training,
and other kinds are no-ops. -/
def applyEvent (sq : ℚ → ℚ) (mapDiagonal : ℚ) (character : Character)
    (event : TimelineEvent) : Character :=
  match event.action with
  | .move =>
    match event.targetLocation with
    | some target => processMovement sq character target mapDiagonal
    | none => character
  | .train => processTraining character
  | _ => character

/-- Accumulator step of the due-event loop: applies the event to the
character, records the event as triggered with its completed flag set,
and emits the corresponding world event at the character's position as
updated so far. -/
def processEventStep (sq : ℚ → ℚ) (mapDiagonal currentTurn : ℚ)
    (characterId : String) (now : ℚ)
    (acc : Character × List TimelineEvent × List WorldEvent)
    (event : TimelineEvent) :
    Character × List TimelineEvent × List WorldEvent :=
  let updated := applyEvent sq mapDiagonal acc.1 event
  (updated,
   acc.2.1 ++ [{ event with completed := true }],
   acc.2.2 ++
     [{ id := "event-" ++ toString currentTurn ++ "-" ++ characterId ++
          "-" ++ event.id
        turn := currentTurn
        type := if event.action = .combat then .combat else .custom
        involvedCharacterIds := [characterId]
        location := updated.position
        description := event.description
        timestamp := now }])

/-- Per-character body of the turn loop: fire due events, mark them
completed on the timeline, regenerate 5 percent of max madra while
resting, detect nearby characters for an encounter event, and stamp the
last-updated time. Returns the updated character, the events that fired
and the world events emitted for this character. -/
def processCharacter (sq : ℚ → ℚ) (now currentTurn mapDiagonal : ℚ)
    (allCharacters : List Character) (character : Character) :
    Character × List TimelineEvent × List WorldEvent :=
  let due := dueEvents currentTurn character
  let folded :=
    due.foldl (processEventStep sq mapDiagonal currentTurn character.id now)
      (character, [], [])
  let afterEvents :=
    { folded.1 with timeline := markCompleted currentTurn folded.1.timeline }
  let afterRegen :=
    if afterEvents.activity = Activity.resting then
      let regenAmount := mathFloor (afterEvents.madraCore.maxMadra * 0.05)
      { afterEvents with
        madraCore :=
          { afterEvents.madraCore with
            currentMadra :=
              min afterEvents.madraCore.maxMadra
                (afterEvents.madraCore.currentMadra + regenAmount) } }
    else afterEvents
  let nearby := findNearbyCharacters sq afterRegen allCharacters mapDiagonal
  let worldEvents :=
    if 0 < nearby.length ∧ afterRegen.activity ≠ Activity.combat then
      folded.2.2 ++
        [{ id := "encounter-" ++ toString currentTurn ++ "-" ++ character.id
           turn := currentTurn
           type := .interaction
           involvedCharacterIds := character.id :: nearby.map Character.id
           location := afterRegen.position
           description :=
             character.name ++ " encounters " ++
               String.intercalate ", " (nearby.map Character.name)
           timestamp := now }]
    else folded.2.2
  ({ afterRegen with lastUpdated := now }, folded.2.1, worldEvents)

/-- Output of processTurn. -/
structure TurnResult where
  updatedCharacters : List Character
  triggeredEvents : List TimelineEvent
  worldEvents : List WorldEvent
deriving DecidableEq

/-- Process a single turn for the entire world: the new turn number is
the world's counter plus one, the map diagonal normalizes travel, and the
characters are processed in input order, each against the original
character list. -/
def processTurn (sq : ℚ → ℚ) (now : ℚ) (world : World)
    (characters : List Character) : TurnResult :=
  let currentTurn := world.currentTurn + 1
  let mapDiagonal :=
    sq (world.map.width ^ 2 + world.map.height ^ 2)
  let perCharacter :=
    characters.map (processCharacter sq now currentTurn mapDiagonal characters)
  { updatedCharacters := perCharacter.map Prod.fst
    triggeredEvents := perCharacter.flatMap fun p => p.2.1
    worldEvents := perCharacter.flatMap fun p => p.2.2 }

/-! ## Stated invariants -/

/-- Invariant from the data model: current madra and current HP are
nonnegative and bounded by their maxima. -/
def inBounds (c : Character) : Prop :=
  0 ≤ c.madraCore.currentMadra ∧
    c.madraCore.currentMadra ≤ c.madraCore.maxMadra ∧
    0 ≤ c.stats.currentHp ∧ c.stats.currentHp ≤ c.stats.maxHp

/-- The invariant holds of every character in a list. -/
def allInBounds : List Character → Prop
  | [] => True
  | c :: cs => inBounds c ∧ allInBounds cs

/-! ## Concrete instances used in witnesses and counterexamples -/

/-- Sample ability and combat stats. -/
def sampleStats : CharacterStats :=
  { strength := 14, dexterity := 10, constitution := 10, intelligence := 12
    wisdom := 10, charisma := 10, maxHp := 20, currentHp := 20
    armorClass := 12, initiative := 0, tierBonus := 0 }

/-- Sample madra core with the given current and maximum charge. -/
def sampleCore (cur mx : ℚ) : MadraCore :=
  { nature := "Fire", currentMadra := cur, maxMadra := mx, tier := "Iron" }

/-- Sample character builder for concrete test instances. -/
def sampleCharacter (id : String) (tier : AdvancementTier) (cur mx : ℚ)
    (pos : Position) (act : Activity) (tl : List TimelineEvent)
    (ts : List Technique) : Character :=
  { id := id, name := id, advancementTier := tier
    madraCore := sampleCore cur mx, techniques := ts, stats := sampleStats
    inventory := [], position := pos, activity := act, timeline := tl
    createdAt := 0, lastUpdated := 0 }

/-- Character used for the cycleScale failure path. -/
def cInvalid : Character :=
  sampleCharacter "hero" .Iron 50 100 { x := 0, y := 0 } .idle [] []

/-- A weapon item: not a scale. -/
def itemWeapon : Item :=
  { id := "w1", name := "Sword", description := "A sword"
    type := .weapon, quantity := 1 }

/-- A scale item whose charge of 100 overflows cInvalid's capacity gap. -/
def scaleBig : Item :=
  { id := "s1", name := "Fire Scale", description := "A big scale"
    type := .scale, quantity := 1
    properties := some { madra := some 100, nature := some "Fire" } }

/-- A scale item with a small charge of 5. -/
def scaleSmall : Item :=
  { id := "s2", name := "Fire Scale", description := "A small scale"
    type := .scale, quantity := 1
    properties := some { madra := some 5, nature := some "Fire" } }

/-- Sample technique at proficiency 50. -/
def trainTechnique : Technique :=
  { id := "t1", name := "Flame", description := "A flame technique"
    nature := "Fire", requiredTier := "Iron", madraCost := 5
    proficiency := 50, cooldown := 0 }

/-- Train event due at turn 1. -/
def trainEvent : TimelineEvent :=
  { id := "e1", turn := 1, description := "trains hard", action := .train }

/-- Sample world at turn 0 with a 3 by 4 map. -/
def sampleWorld : World :=
  { id := "w", name := "World"
    map := { id := "m", name := "Map", width := 3, height := 4 }
    currentTurn := 0 }

/-- Character with one due train event. -/
def cTrainee : Character :=
  sampleCharacter "trainee" .Iron 10 100 { x := 2, y := 2 } .idle
    [trainEvent] [trainTechnique]

/-- Foundation-tier character at the origin, used for movement. -/
def cMover : Character :=
  sampleCharacter "mover" .Foundation 10 100 { x := 0, y := 0 } .idle [] []

/-- Movement target three across and four up from the origin. -/
def targetPos : Position := { x := 3, y := 4 }

/-- Defeated enemy with no remaining madra. -/
def enemyZero : Character :=
  sampleCharacter "zed" .Iron 0 100 { x := 0, y := 0 } .idle [] []

/-- Defeated enemy with 300 remaining madra. -/
def enemyRich : Character :=
  sampleCharacter "rich" .Iron 300 1000 { x := 0, y := 0 } .idle [] []

/-- Resting character for the bounds witness. -/
def cRester : Character :=
  sampleCharacter "rester" .Iron 10 100 { x := 0, y := 0 } .resting [] []

/-- Expected result of cycling scaleSmall into cRester. -/
def cResterCycled : CycleScaleResult :=
  { character :=
      { cRester with
        madraCore := { cRester.madraCore with currentMadra := 15, maxMadra := 100 }
        inventory := [] }
    advanced := false }

/-- A combat action of type move, invalid for the combat resolver. -/
def moveAction : CombatAction := { actorId := "hero", actionType := .move }

/-! ## Supporting lemmas -/

/-- The executable square root is exact on squares of nonnegative
rationals. -/
theorem qSqrt_exact : SqrtExact qSqrt := by
  intro x hx
  rw [qSqrt, Rat.sqrt_eq, abs_of_nonneg hx]

/-- Every finite travel speed in the tier table, with the default 1 in
the impossible none case, is positive. -/
theorem travelSpeed_getD_pos (t : AdvancementTier) :
    0 < (calculateTravelSpeed t).getD 1 := by
  cases t <;>
    norm_num [calculateTravelSpeed, ADVANCEMENT_TIER_LEVELS]

/-- Every finite travel speed in the tier table is positive. -/
theorem travelSpeed_pos (t : AdvancementTier) (s : ℚ)
    (h : calculateTravelSpeed t = some s) : 0 < s := by
  have hp := travelSpeed_getD_pos t
  rw [h] at hp
  simpa using hp

/-- Unfolded form of the squared distance. -/
theorem dist2_eq (p q : Position) :
    dist2 p q =
      (q.x - p.x) * (q.x - p.x) + (q.y - p.y) * (q.y - p.y) := rfl

/-- Squared distances are nonnegative. -/
theorem dist2_nonneg (p q : Position) : 0 ≤ dist2 p q := by
  rw [dist2_eq]
  have h1 := mul_self_nonneg (q.x - p.x)
  have h2 := mul_self_nonneg (q.y - p.y)
  linarith

/-- The squared distance from a point to itself is zero. -/
theorem dist2_self (p : Position) : dist2 p p = 0 := by
  simp [dist2]

/-- An exact square root sends zero to zero. -/
theorem sqrtExact_zero (sq : ℚ → ℚ) (hsq : SqrtExact sq) : sq 0 = 0 := by
  have h := hsq 0 le_rfl
  simpa using h

/-- Distance from a point to itself is zero under an exact square root. -/
theorem calculateDistance_self (sq : ℚ → ℚ) (hsq : SqrtExact sq)
    (p : Position) : calculateDistance sq p p = 0 := by
  rw [calculateDistance, dist2_self, sqrtExact_zero sq hsq]

/-- Snap case of moveToward: within one step, the move returns exactly
the target. -/
theorem moveToward_snap (sq : ℚ → ℚ) (c : Character) (t : Position)
    (mapDiagonal s : ℚ) (hs : calculateTravelSpeed c.advancementTier = some s)
    (h : calculateDistance sq c.position t ≤ mapDiagonal * s) :
    moveToward sq c t mapDiagonal = t := by
  rw [moveToward, hs]
  simp [h]

/-- Far case of moveToward: beyond one step, the move advances by the
step length along the direction vector. -/
theorem moveToward_far (sq : ℚ → ℚ) (c : Character) (t : Position)
    (mapDiagonal s : ℚ) (hs : calculateTravelSpeed c.advancementTier = some s)
    (h : mapDiagonal * s < calculateDistance sq c.position t) :
    moveToward sq c t mapDiagonal =
      { x := c.position.x + (t.x - c.position.x) /
          calculateDistance sq c.position t * (mapDiagonal * s)
        y := c.position.y + (t.y - c.position.y) /
          calculateDistance sq c.position t * (mapDiagonal * s) } := by
  rw [moveToward, hs]
  simp [not_le.mpr h]

/-- Squared distance after advancing m along the unit vector toward the
target, given that d is the exact distance. -/
theorem dist2_advance (p t : Position) (d m : ℚ) (hd : d ≠ 0)
    (hex : d * d = dist2 p t) :
    dist2 { x := p.x + (t.x - p.x) / d * m, y := p.y + (t.y - p.y) / d * m }
      t = (d - m) * (d - m) := by
  rw [dist2_eq] at hex ⊢
  have hx : t.x - (p.x + (t.x - p.x) / d * m) = (t.x - p.x) * (d - m) / d := by
    field_simp
    ring
  have hy : t.y - (p.y + (t.y - p.y) / d * m) = (t.y - p.y) * (d - m) / d := by
    field_simp
    ring
  rw [hx, hy]
  have expand :
      (t.x - p.x) * (d - m) / d * ((t.x - p.x) * (d - m) / d) +
          (t.y - p.y) * (d - m) / d * ((t.y - p.y) * (d - m) / d) =
        ((t.x - p.x) * (t.x - p.x) + (t.y - p.y) * (t.y - p.y)) *
          ((d - m) * (d - m)) / (d * d) := by
    field_simp
    ring
  rw [expand, ← hex]
  rw [mul_comm (d * d) ((d - m) * (d - m)), mul_div_assoc]
  rw [div_self (mul_ne_zero hd hd), mul_one]

/-- Far case of moveToward: the squared distance to the target becomes
the square of d minus m, and the distance becomes exactly d minus m. -/
theorem moveToward_far_dist (sq : ℚ → ℚ) (hsq : SqrtExact sq)
    (c : Character) (t : Position) (mapDiagonal s : ℚ)
    (hs : calculateTravelSpeed c.advancementTier = some s)
    (hex : calculateDistance sq c.position t *
        calculateDistance sq c.position t = dist2 c.position t)
    (h : mapDiagonal * s < calculateDistance sq c.position t)
    (hm : 0 < mapDiagonal * s) :
    dist2 (moveToward sq c t mapDiagonal) t =
        (calculateDistance sq c.position t - mapDiagonal * s) *
          (calculateDistance sq c.position t - mapDiagonal * s) ∧
      calculateDistance sq (moveToward sq c t mapDiagonal) t =
        calculateDistance sq c.position t - mapDiagonal * s := by
  have hdne : calculateDistance sq c.position t ≠ 0 := by
    intro h0
    rw [h0] at h
    linarith
  have h2 : dist2 (moveToward sq c t mapDiagonal) t =
      (calculateDistance sq c.position t - mapDiagonal * s) *
        (calculateDistance sq c.position t - mapDiagonal * s) := by
    rw [moveToward_far sq c t mapDiagonal s hs h]
    exact dist2_advance c.position t _ _ hdne hex
  refine ⟨h2, ?_⟩
  rw [calculateDistance, h2]
  exact hsq _ (by linarith)

/-- Iterated movement reaches the target within n plus one steps whenever
the current distance is at most n plus one step lengths, assuming the
square root is exact along the way. -/
theorem moveIter_reaches (sq : ℚ → ℚ) (hsq : SqrtExact sq) (t : Position)
    (mapDiagonal s : ℚ) (hm : 0 < mapDiagonal * s) :
    ∀ (n : ℕ) (c : Character),
      calculateTravelSpeed c.advancementTier = some s →
      0 ≤ calculateDistance sq c.position t →
      calculateDistance sq c.position t *
          calculateDistance sq c.position t = dist2 c.position t →
      calculateDistance sq c.position t ≤
          ((n : ℚ) + 1) * (mapDiagonal * s) →
      (moveIter sq c t mapDiagonal (n + 1)).position = t := by
  intro n
  induction n with
  | zero =>
    intro c hs hd0 hex hb
    have hsnap : moveToward sq c t mapDiagonal = t :=
      moveToward_snap sq c t mapDiagonal s hs (by push_cast at hb; linarith)
    simp [moveIter, hsnap]
  | succ n ih =>
    intro c hs hd0 hex hb
    show (moveIter sq
        { c with position := moveToward sq c t mapDiagonal }
        t mapDiagonal (n + 1)).position = t
    by_cases hle : calculateDistance sq c.position t ≤ mapDiagonal * s
    · have hsnap := moveToward_snap sq c t mapDiagonal s hs hle
      apply ih
      · exact hs
      · show 0 ≤ calculateDistance sq (moveToward sq c t mapDiagonal) t
        rw [hsnap, calculateDistance_self sq hsq]
      · show calculateDistance sq (moveToward sq c t mapDiagonal) t *
            calculateDistance sq (moveToward sq c t mapDiagonal) t =
          dist2 (moveToward sq c t mapDiagonal) t
        rw [hsnap, calculateDistance_self sq hsq, dist2_self]
        ring
      · show calculateDistance sq (moveToward sq c t mapDiagonal) t ≤ _
        rw [hsnap, calculateDistance_self sq hsq]
        positivity
    · have hfar := moveToward_far_dist sq hsq c t mapDiagonal s hs hex
        (not_le.mp hle) hm
      apply ih
      · exact hs
      · show 0 ≤ calculateDistance sq (moveToward sq c t mapDiagonal) t
        rw [hfar.2]
        have := not_le.mp hle
        linarith
      · show calculateDistance sq (moveToward sq c t mapDiagonal) t *
            calculateDistance sq (moveToward sq c t mapDiagonal) t =
          dist2 (moveToward sq c t mapDiagonal) t
        rw [hfar.2, hfar.1]
      · show calculateDistance sq (moveToward sq c t mapDiagonal) t ≤ _
        rw [hfar.2]
        push_cast at hb ⊢
        linarith

/-- Event dispatch never touches the timeline field. -/
theorem applyEvent_timeline (sq : ℚ → ℚ) (md : ℚ) (c : Character)
    (e : TimelineEvent) : (applyEvent sq md c e).timeline = c.timeline := by
  unfold applyEvent
  cases e.action <;> first
    | rfl
    | (cases e.targetLocation <;> rfl)

/-- The character component of the due-event fold keeps the timeline of
the initial accumulator. -/
theorem foldl_step_timeline (sq : ℚ → ℚ) (md ct : ℚ) (cid : String)
    (now : ℚ) :
    ∀ (due : List TimelineEvent)
      (acc : Character × List TimelineEvent × List WorldEvent),
      ((due.foldl (processEventStep sq md ct cid now) acc).1).timeline =
        acc.1.timeline := by
  intro due
  induction due with
  | nil => intro acc; rfl
  | cons e es ih =>
    intro acc
    rw [List.foldl_cons, ih]
    exact applyEvent_timeline sq md acc.1 e

/-- After the marking pass, no event of the timeline is still due at the
same turn. -/
theorem markCompleted_no_due (ct : ℚ) (tl : List TimelineEvent) :
    (markCompleted ct tl).filter
      (fun e => decide (e.turn = ct ∧ e.completed = false)) = [] := by
  simp only [markCompleted]
  simp only [List.filter_eq_nil_iff, List.mem_map]
  rintro e ⟨a, _, rfl⟩
  by_cases hP : a.turn = ct ∧ a.completed = false
  · rw [if_pos hP]
    simp
  · rw [if_neg hP]
    push_neg at hP
    simp only [decide_eq_true_eq, not_and]
    intro hturn
    simpa using hP hturn

/-- The timeline of the character returned by the per-character turn body
is the input timeline with due events marked completed. -/
theorem processCharacter_fst_timeline (sq : ℚ → ℚ) (now ct md : ℚ)
    (all : List Character) (c : Character) :
    (processCharacter sq now ct md all c).1.timeline =
      markCompleted ct c.timeline := by
  unfold processCharacter
  dsimp only
  rw [foldl_step_timeline]
  split <;> rfl

/-- After a turn is processed, the returned character has no events still
due at that turn number. -/
theorem processCharacter_due_nil (sq : ℚ → ℚ) (now ct md : ℚ)
    (all : List Character) (c : Character) :
    dueEvents ct (processCharacter sq now ct md all c).1 = [] := by
  rw [dueEvents, processCharacter_fst_timeline]
  exact markCompleted_no_due ct c.timeline

/-- A character with no due events fires nothing. -/
theorem processCharacter_trig_nil (sq : ℚ → ℚ) (now ct md : ℚ)
    (all : List Character) (c : Character) (h : dueEvents ct c = []) :
    (processCharacter sq now ct md all c).2.1 = [] := by
  unfold processCharacter
  dsimp only
  rw [h]
  rfl

/-- A flat map over lists is empty when every piece is empty. -/
theorem flatMap_nil_of_pieces {α β : Type} (f : α → List β) :
    ∀ l : List α, (∀ x ∈ l, f x = []) → l.flatMap f = [] := by
  intro l
  induction l with
  | nil => intro _; rfl
  | cons x xs ih =>
    intro h
    rw [List.flatMap_cons, h x (List.mem_cons_self x xs), List.nil_append]
    exact ih fun y hy => h y (List.mem_cons_of_mem x hy)

/-- When no supplied character has a due event, the turn fires nothing. -/
theorem processTurn_triggered_nil (sq : ℚ → ℚ) (now : ℚ) (w : World)
    (cs : List Character)
    (h : ∀ c ∈ cs, dueEvents (w.currentTurn + 1) c = []) :
    (processTurn sq now w cs).triggeredEvents = [] := by
  unfold processTurn
  dsimp only
  apply flatMap_nil_of_pieces
  intro p hp
  rw [List.mem_map] at hp
  obtain ⟨c, hc, hpc⟩ := hp
  rw [← hpc]
  exact processCharacter_trig_nil _ _ _ _ _ _ (h c hc)

/-- Processing the output of a turn again at the same turn number fires
no events: every event due at that turn was marked completed. -/
theorem processTurn_twice_triggered_nil (sq sq2 : ℚ → ℚ) (now now2 : ℚ)
    (w : World) (cs : List Character) :
    (processTurn sq2 now2 w
        (processTurn sq now w cs).updatedCharacters).triggeredEvents = [] := by
  apply processTurn_triggered_nil
  intro c' hc'
  unfold processTurn at hc'
  dsimp only at hc'
  rw [List.map_map, List.mem_map] at hc'
  obtain ⟨c, _, hpc⟩ := hc'
  rw [← hpc]
  exact processCharacter_due_nil _ _ _ _ _ _

/-- Indexing into the updated characters of a turn gives the
per-character turn body applied to the input at that index. -/
theorem processTurn_updated_getElem (sq : ℚ → ℚ) (now : ℚ) (w : World)
    (cs : List Character) (i : ℕ) :
    (processTurn sq now w cs).updatedCharacters[i]? =
      cs[i]?.map fun c =>
        (processCharacter sq now (w.currentTurn + 1)
          (sq (w.map.width ^ 2 + w.map.height ^ 2)) cs c).1 := by
  unfold processTurn
  dsimp only
  rw [List.map_map, List.getElem?_map]
  rfl

/-- Per-character turn body on a character whose only due event is a
train event: techniques are bumped, capacity grows by 0.1 percent, the
activity becomes training, the timeline is marked, and the stamp is set. -/
theorem processCharacter_train (sq : ℚ → ℚ) (now ct md : ℚ)
    (all : List Character) (c : Character) (e : TimelineEvent)
    (hdue : dueEvents ct c = [e]) (he : e.action = EventAction.train) :
    (processCharacter sq now ct md all c).1 =
      { c with
        techniques := c.techniques.map fun t =>
          { t with proficiency := min 100 (t.proficiency + 1) }
        madraCore :=
          { c.madraCore with
            maxMadra :=
              c.madraCore.maxMadra + c.madraCore.maxMadra * 0.001 }
        activity := .training
        timeline := markCompleted ct c.timeline
        lastUpdated := now } := by
  have happ : applyEvent sq md c e = processTraining c := by
    unfold applyEvent
    rw [he]
  unfold processCharacter
  dsimp only
  rw [hdue]
  simp only [List.foldl_cons, List.foldl_nil, processEventStep]
  rw [happ]
  simp [processTraining]

/-- The floor of a nonnegative rational is nonnegative. -/
theorem mathFloor_nonneg (q : ℚ) (h : 0 ≤ q) : 0 ≤ mathFloor q := by
  unfold mathFloor
  exact_mod_cast Int.floor_nonneg.mpr h

/-- The floor is at most its argument. -/
theorem mathFloor_le (q : ℚ) : mathFloor q ≤ q := Int.floor_le q

/-- Event dispatch preserves the madra and HP bounds. -/
theorem applyEvent_inBounds (sq : ℚ → ℚ) (md : ℚ) (c : Character)
    (e : TimelineEvent) (h : inBounds c) :
    inBounds (applyEvent sq md c e) := by
  obtain ⟨h1, h2, h3, h4⟩ := h
  have hmax : 0 ≤ c.madraCore.maxMadra := le_trans h1 h2
  unfold applyEvent
  cases e.action
  case move =>
    cases e.targetLocation
    · exact ⟨h1, h2, h3, h4⟩
    · exact ⟨h1, h2, h3, h4⟩
  case train =>
    refine ⟨h1, ?_, h3, h4⟩
    show c.madraCore.currentMadra ≤
      c.madraCore.maxMadra + c.madraCore.maxMadra * 0.001
    have : 0 ≤ c.madraCore.maxMadra * 0.001 :=
      mul_nonneg hmax (by norm_num)
    linarith
  all_goals exact ⟨h1, h2, h3, h4⟩

/-- The due-event fold preserves the madra and HP bounds. -/
theorem foldl_step_inBounds (sq : ℚ → ℚ) (md ct : ℚ) (cid : String)
    (now : ℚ) :
    ∀ (due : List TimelineEvent)
      (acc : Character × List TimelineEvent × List WorldEvent),
      inBounds acc.1 →
      inBounds (due.foldl (processEventStep sq md ct cid now) acc).1 := by
  intro due
  induction due with
  | nil => intro acc h; exact h
  | cons e es ih =>
    intro acc h
    rw [List.foldl_cons]
    exact ih _ (applyEvent_inBounds sq md acc.1 e h)

/-- The per-character turn body preserves the madra and HP bounds. -/
theorem processCharacter_inBounds (sq : ℚ → ℚ) (now ct md : ℚ)
    (all : List Character) (c : Character) (h : inBounds c) :
    inBounds (processCharacter sq now ct md all c).1 := by
  unfold processCharacter
  dsimp only
  have hb :
      inBounds ((dueEvents ct c).foldl
        (processEventStep sq md ct c.id now) (c, [], [])).1 :=
    foldl_step_inBounds sq md ct c.id now _ _ h
  obtain ⟨h1, h2, h3, h4⟩ := hb
  have hmax := le_trans h1 h2
  split
  · refine ⟨?_, ?_, h3, h4⟩
    · show 0 ≤ min _ _
      refine le_min hmax ?_
      have : 0 ≤ mathFloor (_ * 0.05) :=
        mathFloor_nonneg _ (mul_nonneg hmax (by norm_num))
      linarith
    · exact min_le_left _ _
  · exact ⟨h1, h2, h3, h4⟩

/-- The invariant transfers along a list map whose function preserves
it. -/
theorem allInBounds_map (f : Character → Character)
    (hf : ∀ c, inBounds c → inBounds (f c)) :
    ∀ l, allInBounds l → allInBounds (l.map f) := by
  intro l
  induction l with
  | nil => intro _; exact trivial
  | cons c cs ih =>
    intro h
    exact ⟨hf c h.1, ih h.2⟩

/-! ## Claim theorems -/

/-- C1 counterexample: cycleScale on a weapon item does not return a
failure result object; it throws (the error case of the embedding), so
the claim that a non-scale item yields a returned result with
success set to false and never a thrown exception fails on the code. -/
theorem cycleScale_nonscale_counterexample :
    cycleScale cInvalid itemWeapon = Except.error "Invalid scale item" := by
  unfold cycleScale
  rw [if_pos]
  exact Or.inl (by simp [itemWeapon])

/-- C1 (amended): for every actor and every item that is not of scale
type, or whose madra payload is absent or zero (falsy), cycleScale
throws the error Invalid scale item instead of returning a result; no
updated actor is produced, so the actor's charge, maximum charge and
inventory are untouched. -/
theorem cycleScale_invalid_item (c : Character) (i : Item)
    (h : i.type ≠ ItemType.scale ∨ i.madraPayload.getD 0 = 0) :
    cycleScale c i = Except.error "Invalid scale item" := by
  unfold cycleScale
  rw [if_pos h]

/-- C1 witness: the weapon item satisfies the guard and the call errors. -/
theorem cycleScale_invalid_item_witness :
    (itemWeapon.type ≠ ItemType.scale ∨ itemWeapon.madraPayload.getD 0 = 0) ∧
      cycleScale cInvalid itemWeapon = Except.error "Invalid scale item" :=
  ⟨Or.inl (by simp [itemWeapon]),
    cycleScale_invalid_item cInvalid itemWeapon
      (Or.inl (by simp [itemWeapon]))⟩

/-- C2 counterexample: the constructor treats the integer seed 0 as
falsy and falls back to the time-derived value, so two generators both
constructed with seed 0 (at times 1 and 10000) produce different roll
sequences for the same call sequence. -/
theorem diceEngine_seed_zero_counterexample :
    (runCalls (mkDiceEngine (some 0) 1) [DiceCall.roll 20 1 0]).1 ≠
      (runCalls (mkDiceEngine (some 0) 10000) [DiceCall.roll 20 1 0]).1 := by
  have s1 : jsMod (1 * 9301 + 49297) 233280 = 58598 := by decide
  have s2 : jsMod (10000 * 9301 + 49297) 233280 = 213857 := by decide
  have f1 : mathFloor (((58598 : ℤ) : ℚ) / 233280 * 20) = 5 := by
    unfold mathFloor
    have : ⌊((58598 : ℤ) : ℚ) / 233280 * 20⌋ = 5 := by
      rw [Int.floor_eq_iff]; norm_num
    rw [this]
    norm_num
  have f2 : mathFloor (((213857 : ℤ) : ℚ) / 233280 * 20) = 18 := by
    unfold mathFloor
    have : ⌊((213857 : ℤ) : ℚ) / 233280 * 20⌋ = 18 := by
      rw [Int.floor_eq_iff]; norm_num
    rw [this]
    norm_num
  have hA : mkDiceEngine (some 0) 1 = { seed := 1 } := by decide
  have hB : mkDiceEngine (some 0) 10000 = { seed := 10000 } := by decide
  rw [hA, hB]
  simp only [runCalls, DiceEngine.roll, rollResults, DiceEngine.random]
  simp only [s1, s2, f1, f2]
  intro h
  rw [List.cons.injEq] at h
  have := congrArg DiceRoll.results h.1
  simp at this

/-- C2 (amended): for every nonzero integer seed, two dice generators
constructed with that seed produce identical outputs, state included,
for the same call sequence, whatever the construction times were; the
generators are pure functions of the seed state. -/
theorem diceEngine_seed_determinism (s : ℤ) (hs : s ≠ 0) (now1 now2 : ℤ)
    (calls : List DiceCall) :
    runCalls (mkDiceEngine (some s) now1) calls =
      runCalls (mkDiceEngine (some s) now2) calls := by
  have heng : mkDiceEngine (some s) now1 = mkDiceEngine (some s) now2 := by
    unfold mkDiceEngine
    dsimp only
    rw [if_neg hs, if_neg hs]
  rw [heng]

/-- C2 witness: seed 42 is nonzero and the two runs agree. -/
theorem diceEngine_seed_determinism_witness :
    (42 : ℤ) ≠ 0 ∧
      runCalls (mkDiceEngine (some 42) 1) [DiceCall.roll 20 1 0] =
        runCalls (mkDiceEngine (some 42) 2) [DiceCall.roll 20 1 0] :=
  ⟨by decide,
    diceEngine_seed_determinism 42 (by decide) 1 2 [DiceCall.roll 20 1 0]⟩

/-- C6 counterexample: at the top tier the two functions do not return
the same value, and only travel has the unbounded sentinel; perception
returns the plain fraction 1. -/
theorem perception_travel_monarch_counterexample :
    calculateTravelSpeed AdvancementTier.Monarch ≠
        some (calculatePerceptionRange AdvancementTier.Monarch) ∧
      calculatePerceptionRange AdvancementTier.Monarch = 1 ∧
      calculateTravelSpeed AdvancementTier.Monarch = none := by
  have hnone : calculateTravelSpeed AdvancementTier.Monarch = none := by
    norm_num [calculateTravelSpeed, ADVANCEMENT_TIER_LEVELS]
  refine ⟨?_, ?_, hnone⟩
  · intro hcon
    rw [hnone] at hcon
    exact Option.noConfusion hcon
  · norm_num [calculatePerceptionRange, ADVANCEMENT_TIER_LEVELS]

/-- C6 (amended): for the eleven tiers below Monarch the perception and
travel tables return the same fraction of the world diagonal; at the top
tier perception returns the full-map fraction 1 (the whole map is
perceivable) while travel returns the unbounded sentinel. -/
theorem perception_travel_matching (t : AdvancementTier) :
    (ADVANCEMENT_TIER_LEVELS t < 10 →
        calculateTravelSpeed t = some (calculatePerceptionRange t)) ∧
      calculatePerceptionRange AdvancementTier.Monarch = 1 ∧
      calculateTravelSpeed AdvancementTier.Monarch = none := by
  refine ⟨?_, ?_, ?_⟩
  · cases t <;> intro hlt <;>
      norm_num [calculateTravelSpeed, calculatePerceptionRange,
        ADVANCEMENT_TIER_LEVELS] at hlt ⊢
  · norm_num [calculatePerceptionRange, ADVANCEMENT_TIER_LEVELS]
  · norm_num [calculateTravelSpeed, ADVANCEMENT_TIER_LEVELS]

/-- C6 witness: Iron is below the ceiling and its two fractions agree. -/
theorem perception_travel_matching_witness :
    ADVANCEMENT_TIER_LEVELS AdvancementTier.Iron < 10 ∧
      calculateTravelSpeed AdvancementTier.Iron =
        some (calculatePerceptionRange AdvancementTier.Iron) :=
  ⟨by decide, (perception_travel_matching AdvancementTier.Iron).1 (by decide)⟩

/-- C9: the tier bonus is the level difference times three, hence
antisymmetric and zero on the diagonal; in particular the equal-level
pair Herald and Sage has bonus zero in both directions. -/
theorem tierBonus_linear_antisymmetric :
    (∀ a b : AdvancementTier,
        calculateTierBonus a b =
            (ADVANCEMENT_TIER_LEVELS a - ADVANCEMENT_TIER_LEVELS b) * 3 ∧
          calculateTierBonus a b = -calculateTierBonus b a ∧
          calculateTierBonus a a = 0) ∧
      calculateTierBonus AdvancementTier.Herald AdvancementTier.Sage = 0 := by
  decide

/-- C4: when a character's only event due at the new turn is a train
event, processTurn bumps every technique's proficiency by exactly one
(capped at 100), grows maxMadra by exactly 0.1 percent of its prior
value without touching currentMadra, marks the timeline, and a second
processTurn call on the returned actors at the same turn number fires no
events. -/
theorem processTurn_train_spec (sq : ℚ → ℚ) (now : ℚ) (w : World)
    (cs : List Character) (i : ℕ) (c : Character) (e : TimelineEvent)
    (hc : cs[i]? = some c)
    (hdue : dueEvents (w.currentTurn + 1) c = [e])
    (he : e.action = EventAction.train) :
    (processTurn sq now w cs).updatedCharacters[i]? = some
      { c with
        techniques := c.techniques.map fun t =>
          { t with proficiency := min 100 (t.proficiency + 1) }
        madraCore :=
          { c.madraCore with
            maxMadra :=
              c.madraCore.maxMadra + c.madraCore.maxMadra * 0.001 }
        activity := .training
        timeline := markCompleted (w.currentTurn + 1) c.timeline
        lastUpdated := now } ∧
    (processTurn sq now w
        (processTurn sq now w cs).updatedCharacters).triggeredEvents = [] := by
  constructor
  · rw [processTurn_updated_getElem, hc, Option.map_some']
    rw [processCharacter_train sq now (w.currentTurn + 1)
      (sq (w.map.width ^ 2 + w.map.height ^ 2)) cs c e hdue he]
  · exact processTurn_twice_triggered_nil sq sq now now w cs

/-- C4 witness: the concrete trainee with one due train event satisfies
the hypotheses and the theorem applies at index 0. -/
theorem processTurn_train_spec_witness :
    ([cTrainee])[0]? = some cTrainee ∧
      dueEvents (sampleWorld.currentTurn + 1) cTrainee = [trainEvent] ∧
      trainEvent.action = EventAction.train ∧
      ((processTurn qSqrt 7 sampleWorld [cTrainee]).updatedCharacters[0]? =
          some
            { cTrainee with
              techniques := cTrainee.techniques.map fun t =>
                { t with proficiency := min 100 (t.proficiency + 1) }
              madraCore :=
                { cTrainee.madraCore with
                  maxMadra := cTrainee.madraCore.maxMadra +
                    cTrainee.madraCore.maxMadra * 0.001 }
              activity := .training
              timeline :=
                markCompleted (sampleWorld.currentTurn + 1) cTrainee.timeline
              lastUpdated := 7 } ∧
        (processTurn qSqrt 7 sampleWorld
            (processTurn qSqrt 7 sampleWorld
              [cTrainee]).updatedCharacters).triggeredEvents = []) := by
  have hdue : dueEvents (sampleWorld.currentTurn + 1) cTrainee =
      [trainEvent] := by
    simp only [dueEvents, cTrainee, sampleCharacter, sampleWorld, trainEvent]
    norm_num
  exact ⟨rfl, hdue, rfl,
    processTurn_train_spec qSqrt 7 sampleWorld [cTrainee] 0 cTrainee
      trainEvent rfl hdue rfl⟩

/-- C5: under a bounded travel speed, a positive world diagonal and an
exact square root at the relevant squared distances, moveToward snaps to
the target exactly when the current distance is at most the step length,
otherwise advances by exactly the step along the unit vector toward the
target; the distance to the target never increases, and repeated
application reaches exactly the target. -/
theorem moveToward_correct (sq : ℚ → ℚ) (c : Character) (t : Position)
    (mapDiagonal s : ℚ) (hsq : SqrtExact sq)
    (hs : calculateTravelSpeed c.advancementTier = some s)
    (hmd : 0 < mapDiagonal)
    (hd0 : 0 ≤ calculateDistance sq c.position t)
    (hex : calculateDistance sq c.position t *
        calculateDistance sq c.position t = dist2 c.position t) :
    (calculateDistance sq c.position t ≤ mapDiagonal * s →
        moveToward sq c t mapDiagonal = t) ∧
      (mapDiagonal * s < calculateDistance sq c.position t →
        moveToward sq c t mapDiagonal =
          { x := c.position.x + (t.x - c.position.x) /
              calculateDistance sq c.position t * (mapDiagonal * s)
            y := c.position.y + (t.y - c.position.y) /
              calculateDistance sq c.position t * (mapDiagonal * s) }) ∧
      calculateDistance sq (moveToward sq c t mapDiagonal) t ≤
        calculateDistance sq c.position t ∧
      ∃ n, (moveIter sq c t mapDiagonal n).position = t := by
  have hm : 0 < mapDiagonal * s := mul_pos hmd (travelSpeed_pos _ _ hs)
  refine ⟨fun h => moveToward_snap sq c t mapDiagonal s hs h,
    fun h => moveToward_far sq c t mapDiagonal s hs h, ?_, ?_⟩
  · by_cases hle : calculateDistance sq c.position t ≤ mapDiagonal * s
    · rw [moveToward_snap sq c t mapDiagonal s hs hle,
        calculateDistance_self sq hsq]
      exact hd0
    · have hfar := moveToward_far_dist sq hsq c t mapDiagonal s hs hex
        (not_le.mp hle) hm
      rw [hfar.2]
      linarith
  · refine ⟨⌈calculateDistance sq c.position t / (mapDiagonal * s)⌉₊ + 1, ?_⟩
    apply moveIter_reaches sq hsq t mapDiagonal s hm _ c hs hd0 hex
    have hceil :
        calculateDistance sq c.position t / (mapDiagonal * s) ≤
          (⌈calculateDistance sq c.position t / (mapDiagonal * s)⌉₊ : ℚ) :=
      Nat.le_ceil _
    rw [div_le_iff₀ hm] at hceil
    have : (0 : ℚ) < mapDiagonal * s := hm
    nlinarith

/-- C5 witness: a Foundation-tier mover at the origin aiming at the
3-4-5 point on a diagonal-256 map satisfies all hypotheses with the
executable square root, and the conclusions follow. -/
theorem moveToward_correct_witness :
    SqrtExact qSqrt ∧
      calculateTravelSpeed cMover.advancementTier = some 0.00390625 ∧
      (0 : ℚ) < 256 ∧
      0 ≤ calculateDistance qSqrt cMover.position targetPos ∧
      calculateDistance qSqrt cMover.position targetPos *
          calculateDistance qSqrt cMover.position targetPos =
        dist2 cMover.position targetPos ∧
      ((calculateDistance qSqrt cMover.position targetPos ≤
            256 * 0.00390625 →
          moveToward qSqrt cMover targetPos 256 = targetPos) ∧
        (256 * 0.00390625 <
            calculateDistance qSqrt cMover.position targetPos →
          moveToward qSqrt cMover targetPos 256 =
            { x := cMover.position.x +
                (targetPos.x - cMover.position.x) /
                  calculateDistance qSqrt cMover.position targetPos *
                  (256 * 0.00390625)
              y := cMover.position.y +
                (targetPos.y - cMover.position.y) /
                  calculateDistance qSqrt cMover.position targetPos *
                  (256 * 0.00390625) }) ∧
        calculateDistance qSqrt (moveToward qSqrt cMover targetPos 256)
            targetPos ≤
          calculateDistance qSqrt cMover.position targetPos ∧
        ∃ n, (moveIter qSqrt cMover targetPos 256 n).position = targetPos) := by
  have hs : calculateTravelSpeed cMover.advancementTier =
      some 0.00390625 := by
    norm_num [cMover, sampleCharacter, calculateTravelSpeed,
      ADVANCEMENT_TIER_LEVELS]
  have hdist : calculateDistance qSqrt cMover.position targetPos = 5 := by
    have h25 : dist2 cMover.position targetPos = 25 := by
      norm_num [dist2_eq, cMover, sampleCharacter, targetPos]
    rw [calculateDistance, h25]
    have : (25 : ℚ) = 5 * 5 := by norm_num
    rw [this]
    exact qSqrt_exact 5 (by norm_num)
  refine ⟨qSqrt_exact, hs, by norm_num, ?_, ?_, ?_⟩
  · rw [hdist]; norm_num
  · rw [hdist]
    norm_num [cMover, sampleCharacter, targetPos, dist2_eq]
  · exact moveToward_correct qSqrt cMover targetPos 256 0.00390625
      qSqrt_exact hs (by norm_num) (by rw [hdist]; norm_num)
      (by rw [hdist]; norm_num [cMover, sampleCharacter, targetPos, dist2_eq])

/-- C10: resolving a combat action whose type is none of attack,
cast_technique, defend or dodge yields a returned (not thrown)
invalid-action result: success false, description Invalid action, no
roll, no damage, and the dice engine state unchanged. -/
theorem resolveCombatAction_invalid (e : DiceEngine) (a : CombatAction)
    (actor : Character) (target : Option Character)
    (h1 : a.actionType ≠ CombatActionType.attack)
    (h2 : a.actionType ≠ CombatActionType.cast_technique)
    (h3 : a.actionType ≠ CombatActionType.defend)
    (h4 : a.actionType ≠ CombatActionType.dodge) :
    resolveCombatAction e a actor target = Except.ok
      ({ action := a, roll := none, success := false, damage := none,
         madraCost := none, effects := [],
         description := "Invalid action" }, e) := by
  unfold resolveCombatAction
  cases ha : a.actionType with
  | attack => exact absurd ha h1
  | cast_technique => exact absurd ha h2
  | defend => exact absurd ha h3
  | dodge => exact absurd ha h4
  | move => rfl
  | use_item => rfl
  | end_turn => rfl

/-- C3 counterexample: cycling a scale of charge 100 into an actor with
50 of 100 madra sets currentMadra to 100 (the prior maximum), while the
new maximum is 150, so currentMadra is not set to the new maxMadra as
the claim states. -/
theorem cycleScale_overflow_counterexample :
    (cycleScale cInvalid scaleBig).map
        (fun r => (r.character.madraCore.currentMadra,
          r.character.madraCore.maxMadra)) =
      Except.ok ((100 : ℚ), (150 : ℚ)) ∧ (100 : ℚ) ≠ 150 := by
  constructor
  · have hguard : ¬(scaleBig.type ≠ ItemType.scale ∨
        scaleBig.madraPayload.getD 0 = 0) := by
      rw [not_or]
      constructor
      · simp [scaleBig]
      · norm_num [scaleBig, Item.madraPayload]
    have hover : cInvalid.madraCore.currentMadra +
        scaleBig.madraPayload.getD 0 > cInvalid.madraCore.maxMadra := by
      norm_num [cInvalid, sampleCharacter, sampleCore, scaleBig,
        Item.madraPayload]
    unfold cycleScale
    rw [if_neg hguard]
    simp only [if_pos hover, Except.map]
    norm_num [cInvalid, sampleCharacter, sampleCore, scaleBig,
      Item.madraPayload]
  · norm_num

/-- C3 (amended): for every actor and scale whose nonzero charge exceeds
maxMadra minus currentMadra, cycleScale succeeds, increases maxMadra by
exactly the overflow amount (currentMadra plus charge minus maxMadra),
sets currentMadra to the prior maxMadra (not the new one: the overflow
becomes capacity, not retained charge), and removes the scale from the
inventory; the advanced flag stays false. -/
theorem cycleScale_overflow (c : Character) (scale : Item) (m : ℚ)
    (htype : scale.type = ItemType.scale)
    (hp : scale.madraPayload = some m) (hm0 : m ≠ 0)
    (hover : c.madraCore.maxMadra - c.madraCore.currentMadra < m) :
    cycleScale c scale = Except.ok
      { character :=
          { c with
            madraCore :=
              { c.madraCore with
                currentMadra := c.madraCore.maxMadra
                maxMadra := c.madraCore.maxMadra +
                  (c.madraCore.currentMadra + m - c.madraCore.maxMadra) }
            inventory := c.inventory.filter fun item =>
              decide (item.id ≠ scale.id) }
        advanced := false
        newTier := none } := by
  have hguard : ¬(scale.type ≠ ItemType.scale ∨
      scale.madraPayload.getD 0 = 0) := by
    rw [not_or]
    exact ⟨by simp [htype], by simp [hp, hm0]⟩
  have hgt : c.madraCore.currentMadra + m > c.madraCore.maxMadra := by
    linarith
  unfold cycleScale
  rw [if_neg hguard]
  simp only [hp, Option.getD_some, if_pos hgt]

/-- C3 witness: the concrete overflow instance satisfies the hypotheses
and the theorem applies. -/
theorem cycleScale_overflow_witness :
    scaleBig.type = ItemType.scale ∧
      scaleBig.madraPayload = some 100 ∧ (100 : ℚ) ≠ 0 ∧
      cInvalid.madraCore.maxMadra - cInvalid.madraCore.currentMadra <
        100 ∧
      cycleScale cInvalid scaleBig = Except.ok
        { character :=
            { cInvalid with
              madraCore :=
                { cInvalid.madraCore with
                  currentMadra := cInvalid.madraCore.maxMadra
                  maxMadra := cInvalid.madraCore.maxMadra +
                    (cInvalid.madraCore.currentMadra + 100 -
                      cInvalid.madraCore.maxMadra) }
              inventory := cInvalid.inventory.filter fun item =>
                decide (item.id ≠ scaleBig.id) }
          advanced := false
          newTier := none } :=
  ⟨by simp [scaleBig], by simp [scaleBig, Item.madraPayload], by norm_num,
    by norm_num [cInvalid, sampleCharacter, sampleCore],
    cycleScale_overflow cInvalid scaleBig 100 (by simp [scaleBig])
      (by simp [scaleBig, Item.madraPayload]) (by norm_num)
      (by norm_num [cInvalid, sampleCharacter, sampleCore])⟩

/-- C8 counterexample: a defeated actor with zero remaining madra yields
a scale of charge zero, which is not strictly less than the remaining
charge, so the strict inequality fails at the boundary the claim
includes. -/
theorem generateScaleDrop_zero_counterexample :
    (generateScaleDrop 0 0 enemyZero).madraPayload = some 0 ∧
      ¬((generateScaleDrop 0 0 enemyZero).madraPayload.getD 0 <
          enemyZero.madraCore.currentMadra) := by
  have hpay : (generateScaleDrop 0 0 enemyZero).madraPayload =
      some (calculateScaleMadra 0 enemyZero.madraCore.currentMadra) := by
    simp [generateScaleDrop, Item.madraPayload]
  have hzero : calculateScaleMadra 0 enemyZero.madraCore.currentMadra = 0 := by
    norm_num [calculateScaleMadra, enemyZero, sampleCharacter, sampleCore,
      mathFloor]
  constructor
  · rw [hpay, hzero]
  · rw [hpay, hzero]
    norm_num [enemyZero, sampleCharacter, sampleCore]

/-- C8 (amended): for every defeated actor with strictly positive
remaining charge and every random draw in the unit interval, the dropped
scale's charge is strictly less than the actor's remaining charge; at
zero remaining charge the scale carries exactly zero. -/
theorem generateScaleDrop_lt (r now : ℚ) (enemy : Character)
    (_hr0 : 0 ≤ r) (hr1 : r ≤ 1)
    (hpos : 0 < enemy.madraCore.currentMadra) :
    (generateScaleDrop r now enemy).madraPayload.getD 0 <
      enemy.madraCore.currentMadra := by
  have hpay : (generateScaleDrop r now enemy).madraPayload =
      some (calculateScaleMadra r enemy.madraCore.currentMadra) := by
    simp [generateScaleDrop, Item.madraPayload]
  rw [hpay, Option.getD_some]
  show mathFloor (enemy.madraCore.currentMadra *
      (1 / 30 + r * (1 / 20 - 1 / 30))) < enemy.madraCore.currentMadra
  have hconst : (1 / 20 - 1 / 30 : ℚ) = 1 / 60 := by norm_num
  rw [hconst]
  have hfr : 1 / 30 + r * (1 / 60) ≤ 1 / 20 := by linarith
  have hchain : enemy.madraCore.currentMadra * (1 / 30 + r * (1 / 60)) ≤
      enemy.madraCore.currentMadra * (1 / 20) :=
    mul_le_mul_of_nonneg_left hfr (le_of_lt hpos)
  have hfloor := mathFloor_le
    (enemy.madraCore.currentMadra * (1 / 30 + r * (1 / 60)))
  linarith

/-- C8 witness: at 300 remaining madra and the lowest draw, the dropped
charge (10) is strictly below the remaining charge. -/
theorem generateScaleDrop_lt_witness :
    (0 : ℚ) ≤ 0 ∧ (0 : ℚ) ≤ 1 ∧
      0 < enemyRich.madraCore.currentMadra ∧
      (generateScaleDrop 0 0 enemyRich).madraPayload.getD 0 <
        enemyRich.madraCore.currentMadra :=
  ⟨le_rfl, by norm_num,
    by norm_num [enemyRich, sampleCharacter, sampleCore],
    generateScaleDrop_lt 0 0 enemyRich le_rfl (by norm_num)
      (by norm_num [enemyRich, sampleCharacter, sampleCore])⟩

/-- C7: every engine operation that touches the madra or HP fields
(processTurn with its training and resting regeneration, and cycleScale
on a well-formed scale with nonnegative charge) keeps current madra and
current HP at least zero and at most their respective maxima. -/
theorem engine_preserves_bounds :
    (∀ (sq : ℚ → ℚ) (now : ℚ) (w : World) (cs : List Character),
        allInBounds cs →
        allInBounds (processTurn sq now w cs).updatedCharacters) ∧
      ∀ (c : Character) (scale : Item) (res : CycleScaleResult),
        inBounds c → 0 ≤ scale.madraPayload.getD 0 →
        cycleScale c scale = Except.ok res → inBounds res.character := by
  constructor
  · intro sq now w cs h
    unfold processTurn
    dsimp only
    rw [List.map_map]
    exact allInBounds_map _
      (fun c hc => processCharacter_inBounds _ _ _ _ _ _ hc) cs h
  · intro c scale res h hm hok
    obtain ⟨h1, h2, h3, h4⟩ := h
    by_cases hguard : scale.type ≠ ItemType.scale ∨
        scale.madraPayload.getD 0 = 0
    · unfold cycleScale at hok
      rw [if_pos hguard] at hok
      exact absurd hok (by simp)
    · unfold cycleScale at hok
      rw [if_neg hguard] at hok
      by_cases hover : c.madraCore.currentMadra +
          scale.madraPayload.getD 0 > c.madraCore.maxMadra
      · simp only [if_pos hover, Except.ok.injEq] at hok
        rw [← hok]
        refine ⟨le_trans h1 h2, ?_, h3, h4⟩
        show c.madraCore.maxMadra ≤ c.madraCore.maxMadra +
          (c.madraCore.currentMadra + scale.madraPayload.getD 0 -
            c.madraCore.maxMadra)
        linarith
      · simp only [if_neg hover, Except.ok.injEq] at hok
        rw [← hok]
        refine ⟨?_, ?_, h3, h4⟩
        · show 0 ≤ c.madraCore.currentMadra + scale.madraPayload.getD 0
          linarith
        · show c.madraCore.currentMadra + scale.madraPayload.getD 0 ≤
            c.madraCore.maxMadra + 0
          push_neg at hover
          linarith

/-- C7 witness: the bounds hold of the concrete resting character before
and after a processed turn, and of the result of cycling a small scale. -/
theorem engine_preserves_bounds_witness :
    allInBounds [cRester] ∧
      allInBounds (processTurn qSqrt 7 sampleWorld [cRester]).updatedCharacters ∧
      inBounds cRester ∧ (0 : ℚ) ≤ scaleSmall.madraPayload.getD 0 ∧
      cycleScale cRester scaleSmall = Except.ok cResterCycled ∧
      inBounds cResterCycled.character := by
  have h1 : inBounds cRester := by
    norm_num [inBounds, cRester, sampleCharacter, sampleCore, sampleStats]
  have hall : allInBounds [cRester] := ⟨h1, trivial⟩
  have hm : (0 : ℚ) ≤ scaleSmall.madraPayload.getD 0 := by
    norm_num [scaleSmall, Item.madraPayload]
  have hok : cycleScale cRester scaleSmall = Except.ok cResterCycled := by
    have hguard : ¬(scaleSmall.type ≠ ItemType.scale ∨
        scaleSmall.madraPayload.getD 0 = 0) := by
      rw [not_or]
      exact ⟨by simp [scaleSmall],
        by norm_num [scaleSmall, Item.madraPayload]⟩
    have hover : ¬(cRester.madraCore.currentMadra +
        scaleSmall.madraPayload.getD 0 > cRester.madraCore.maxMadra) := by
      norm_num [cRester, sampleCharacter, sampleCore, scaleSmall,
        Item.madraPayload]
    unfold cycleScale
    rw [if_neg hguard]
    simp only [if_neg hover]
    norm_num [cRester, sampleCharacter, sampleCore, scaleSmall,
      Item.madraPayload, cResterCycled]
  exact ⟨hall, engine_preserves_bounds.1 qSqrt 7 sampleWorld [cRester] hall,
    h1, hm, hok,
    engine_preserves_bounds.2 cRester scaleSmall cResterCycled h1 hm hok⟩

/-- C10 witness: a concrete move action resolves to the invalid-action
result with the engine state untouched. -/
theorem resolveCombatAction_invalid_witness :
    moveAction.actionType ≠ CombatActionType.attack ∧
      moveAction.actionType ≠ CombatActionType.cast_technique ∧
      moveAction.actionType ≠ CombatActionType.defend ∧
      moveAction.actionType ≠ CombatActionType.dodge ∧
      resolveCombatAction { seed := 7 } moveAction cInvalid none =
        Except.ok
          ({ action := moveAction, roll := none, success := false,
             damage := none, madraCost := none, effects := [],
             description := "Invalid action" }, { seed := 7 }) :=
  ⟨by simp [moveAction], by simp [moveAction], by simp [moveAction],
    by simp [moveAction],
    resolveCombatAction_invalid { seed := 7 } moveAction cInvalid none
      (by simp [moveAction]) (by simp [moveAction]) (by simp [moveAction])
      (by simp [moveAction])⟩

end Perpetu
